import Mathlib

/-!
Shallow embedding of the ic2-rs I2C driver library (src/lib.rs, src/messages.rs,
src/func.rs) and verification of its specification.

Modelling conventions:
* `u16`/`u64` (`c_ulong`) machine integers become `Nat`; the Rust bitwise
  complement `!x` on a `w`-bit integer becomes `x ^^^ (2 ^ w - 1)`.
* A byte buffer behind a pointer is modelled as the `List Nat` of bytes it
  points at.
* A Rust `unwrap` that can panic (the `u16::try_from(len)` conversions) is
  modelled as `Option`: `none` is the panic.
* The external `ioctl` syscall is an oracle: its return code `ret : Int` and
  the `errno` that `last_os_error` would report are passed in as parameters.
  Functions that may issue the `I2C_RDWR` ioctl additionally return the number
  of times that ioctl was invoked, so that "the transaction call is never
  issued" is expressible.
-/

namespace Ic2

/-- Largest value of a `u16`. -/
def U16_MAX : Nat := 0xFFFF

/-- Largest value of a `u64` (`c_ulong`). -/
def U64_MAX : Nat := 0xFFFFFFFFFFFFFFFF

/-- `u16::try_from(n).unwrap()` for a buffer length: `none` models the panic. -/
def u16_try_from (n : Nat) : Option Nat :=
  if n ≤ U16_MAX then some n else none

/-! ## I2C message flags (src/messages.rs lines 3-10) -/

def I2C_M_RD : Nat := 0x0001
def I2C_M_TEN : Nat := 0x0010
def I2C_M_RECV_LEN : Nat := 0x0400
def I2C_M_NO_RD_ACK : Nat := 0x0800
def I2C_M_IGNORE_NACK : Nat := 0x1000
def I2C_M_REV_DIR_ADDR : Nat := 0x2000
def I2C_M_NOSTART : Nat := 0x4000

/-! ## Functionality parameters (src/func.rs lines 3-20) -/

def I2C_FUNC_I2C : Nat := 0x00000001
def I2C_FUNC_10BIT_ADDR : Nat := 0x00000002
def I2C_FUNC_PROTOCOL_MANGLING : Nat := 0x00000004
def I2C_FUNC_SMBUS_PEC : Nat := 0x00000008
def I2C_FUNC_SMBUS_BLOCK_PROC_CALL : Nat := 0x00008000
def I2C_FUNC_SMBUS_QUICK : Nat := 0x00010000
def I2C_FUNC_SMBUS_READ_BYTE : Nat := 0x00020000
def I2C_FUNC_SMBUS_WRITE_BYTE : Nat := 0x00040000
def I2C_FUNC_SMBUS_READ_BYTE_DATA : Nat := 0x00080000
def I2C_FUNC_SMBUS_WRITE_BYTE_DATA : Nat := 0x00100000
def I2C_FUNC_SMBUS_READ_WORD_DATA : Nat := 0x00200000
def I2C_FUNC_SMBUS_WRITE_WORD_DATA : Nat := 0x00400000
def I2C_FUNC_SMBUS_PROC_CALL : Nat := 0x00800000
def I2C_FUNC_SMBUS_READ_BLOCK_DATA : Nat := 0x01000000
def I2C_FUNC_SMBUS_WRITE_BLOCK_DATA : Nat := 0x02000000
def I2C_FUNC_SMBUS_READ_BLOCK : Nat := 0x04000000
def I2C_FUNC_SMBUS_WRITE_BLOCK : Nat := 0x08000000

/-- `Functionality(pub c_ulong)` (src/func.rs line 23). -/
structure Functionality where
  val : Nat
deriving DecidableEq, Repr

/-- `Functionality::i2c` (src/func.rs lines 30-32). -/
def Functionality.i2c (f : Functionality) : Bool :=
  decide (f.val &&& I2C_FUNC_I2C > 0)

/-- `Functionality::_10_bit_addr` (src/func.rs lines 34-36). -/
def Functionality._10_bit_addr (f : Functionality) : Bool :=
  decide (f.val &&& I2C_FUNC_10BIT_ADDR > 0)

/-- `Functionality::protocol_mangling` (src/func.rs lines 38-40). -/
def Functionality.protocol_mangling (f : Functionality) : Bool :=
  decide (f.val &&& I2C_FUNC_PROTOCOL_MANGLING > 0)

/-! ## Messages (src/messages.rs) -/

/-- `i2c_message` struct (src/messages.rs lines 73-80); the `*mut u8` buffer
pointer is modelled as the list of bytes it points at. -/
structure I2cMessage where
  addr : Nat
  flags : Nat
  len : Nat
  buffer : List Nat
deriving DecidableEq, Repr

/-- `I2cMessageBuffer` (src/messages.rs lines 36-39) is a growable vector of
messages; modelled as the message list itself. -/
def I2cMessageBuffer.new : List I2cMessage := []

/-- `I2cMessageBuffer::add_raw` (src/messages.rs lines 62-69). -/
def I2cMessageBuffer.add_raw (self : List I2cMessage) (addr flags len : Nat)
    (buffer : List Nat) : List I2cMessage :=
  self ++ [{ addr := addr, flags := flags, len := len, buffer := buffer }]

/-- `I2cMessageBuffer::add_read` (src/messages.rs lines 47-52):
`flags | I2C_M_RD`, length from `u16::try_from(buffer.len()).unwrap()`. -/
def I2cMessageBuffer.add_read (self : List I2cMessage) (addr flags : Nat)
    (buffer : List Nat) : Option (List I2cMessage) :=
  (u16_try_from buffer.length).map fun len =>
    I2cMessageBuffer.add_raw self addr (flags ||| I2C_M_RD) len buffer

/-- `I2cMessageBuffer::add_write` (src/messages.rs lines 54-60):
`flags & !I2C_M_RD` with `!` the `u16` complement. -/
def I2cMessageBuffer.add_write (self : List I2cMessage) (addr flags : Nat)
    (buffer : List Nat) : Option (List I2cMessage) :=
  (u16_try_from buffer.length).map fun len =>
    I2cMessageBuffer.add_raw self addr (flags &&& (I2C_M_RD ^^^ U16_MAX)) len buffer

/-- `I2cMessage::read_reg` (src/messages.rs lines 83-99): a one-byte write
carrying the register, then a read of the destination buffer's length. -/
def I2cMessage.read_reg (addr reg : Nat) (buffer : List Nat) :
    Option (List I2cMessage) :=
  (u16_try_from buffer.length).map fun len =>
    [ { addr := addr, flags := 0, len := 1, buffer := [reg] },
      { addr := addr, flags := 1, len := len, buffer := buffer } ]

/-- `I2cMessage::write_reg` (src/messages.rs lines 101-113): a single message
whose payload is the register byte followed by the input buffer. -/
def I2cMessage.write_reg (addr reg : Nat) (buffer : List Nat) :
    Option (List I2cMessage) :=
  let new_buff := reg :: buffer
  (u16_try_from new_buff.length).map fun len =>
    [ { addr := addr, flags := I2C_M_RD, len := len, buffer := new_buff } ]

/-- `i2c_rdwr_ioctl_data` struct (src/messages.rs lines 13-21): pointer to the
message array plus a count. The `u32::try_from(buffer.len()).unwrap()` in
`from_messages` is not modelled (every batch built here is tiny). -/
structure I2cReadWriteData where
  messages : List I2cMessage
  num : Nat
deriving DecidableEq, Repr

/-- `I2cReadWriteData::from_messages` (src/messages.rs lines 25-33). -/
def I2cReadWriteData.from_messages (buffer : List I2cMessage) : I2cReadWriteData :=
  { messages := buffer, num := buffer.length }

/-! ## Handle, errors and execution (src/lib.rs) -/

/-- `I2c` handle (src/lib.rs lines 22-26); the open `std::fs::File` is an
external resource and is not part of the pure model. -/
structure I2c where
  addr : Nat
  func : Functionality
deriving DecidableEq, Repr

/-- `IoctlError` (src/lib.rs lines 143-148); `std::io::Error` is modelled by
the OS error number `last_os_error` would carry. -/
inductive IoctlError where
  | FunctionalityError (f : Functionality)
  | IoctlError (errno : Nat)
deriving DecidableEq, Repr

/-- `I2cError` (src/lib.rs lines 157-170). -/
inductive I2cError where
  | FileError (errno : Nat)
  | ReadError (e : IoctlError)
  | WriteError (e : IoctlError)
  | BufferError (e : IoctlError)
  | IoctlError (e : IoctlError)
  | AddressError
deriving DecidableEq, Repr

/-- `get_err` (src/lib.rs lines 185-190): a non-negative ioctl return is
success, a negative one yields `last_os_error` (the oracle's `errno`). -/
def get_err (code : Int) (errno : Nat) : Except Nat Int :=
  if 0 ≤ code then Except.ok code else Except.error errno

/-- `I2c::require_func` (src/lib.rs lines 94-100):
`mask = !self.functionality().0 & func` over `c_ulong` (`u64`). -/
def I2c.require_func (self : I2c) (func : Nat) : Except Functionality Unit :=
  let mask := (self.func.val ^^^ U64_MAX) &&& func
  if mask = 0 then Except.ok () else Except.error { val := mask }

/-- The address-range check of `I2c::open` (src/lib.rs lines 39-43):
`(!func._10_bit_addr() & (addr > 0x7F)) |
 (func._10_bit_addr() & (addr > 0x3FF))` flags the address as out
of range. -/
def addr_out_of_range (func : Functionality) (addr : Nat) : Bool :=
  (!func._10_bit_addr && decide (addr > 0x7F)) ||
    (func._10_bit_addr && decide (addr > 0x3FF))

/-- `I2c::open` (src/lib.rs lines 29-46), on the run where the external file
open and the `I2C_FUNCS` capability query both succeeded and reported `func`:
only the address-range check remains. -/
def I2c.open (addr : Nat) (func : Functionality) : Except I2cError I2c :=
  if addr_out_of_range func addr then Except.error I2cError.AddressError
  else Except.ok { addr := addr, func := func }

/-- `i2c_rdwr_ioctl` (src/lib.rs lines 172-182). The second component counts
how many times the `I2C_RDWR` ioctl was issued: the capability check comes
first, and on failure the syscall is never reached. -/
def i2c_rdwr_ioctl (handle : I2c) (ret : Int) (errno : Nat) :
    Except IoctlError Unit × Nat :=
  match handle.require_func I2C_FUNC_I2C with
  | Except.error f => (Except.error (IoctlError.FunctionalityError f), 0)
  | Except.ok _ =>
    match get_err ret errno with
    | Except.error e => (Except.error (IoctlError.IoctlError e), 1)
    | Except.ok _ => (Except.ok (), 1)

/-- `I2c::i2c_read_bytes` (src/lib.rs lines 52-59). Builds the register
select-then-read batch (the construction of src/messages.rs `read_reg`), then
executes it; an ioctl failure is wrapped in `ReadError`. Returns the batch,
the result (the read bytes on success; the kernel's filling of the buffer is
outside the pure model, so the zero-initialised buffer is returned), and the
`I2C_RDWR` invocation count. -/
def I2c.i2c_read_bytes (self : I2c) (register bytes : Nat) (ret : Int)
    (errno : Nat) :
    Option (List I2cMessage × Except I2cError (List Nat) × Nat) :=
  let buffer := List.replicate bytes 0
  (I2cMessage.read_reg self.addr register buffer).map fun messages =>
    match i2c_rdwr_ioctl self ret errno with
    | (Except.error e, n) => (messages, Except.error (I2cError.ReadError e), n)
    | (Except.ok _, n) => (messages, Except.ok buffer, n)

/-- `I2c::i2c_read` (src/lib.rs lines 61-67): same batch as `i2c_read_bytes`
but into a caller buffer; an ioctl failure is wrapped in `ReadError`. -/
def I2c.i2c_read (self : I2c) (register : Nat) (buffer : List Nat) (ret : Int)
    (errno : Nat) :
    Option (List I2cMessage × Except I2cError Unit × Nat) :=
  (I2cMessage.read_reg self.addr register buffer).map fun messages =>
    match i2c_rdwr_ioctl self ret errno with
    | (Except.error e, n) => (messages, Except.error (I2cError.ReadError e), n)
    | (Except.ok _, n) => (messages, Except.ok (), n)

/-- `I2c::i2c_write` (src/lib.rs lines 69-78): prepends the register byte to a
fresh buffer, appends one write message, executes; an ioctl failure is wrapped
in `WriteError`. -/
def I2c.i2c_write (self : I2c) (register : Nat) (buffer : List Nat) (ret : Int)
    (errno : Nat) :
    Option (List I2cMessage × Except I2cError Unit × Nat) :=
  let new_buffer := register :: buffer
  (I2cMessageBuffer.add_write I2cMessageBuffer.new self.addr 0 new_buffer).map
    fun messages =>
      match i2c_rdwr_ioctl self ret errno with
      | (Except.error e, n) => (messages, Except.error (I2cError.WriteError e), n)
      | (Except.ok _, n) => (messages, Except.ok (), n)

/-- `I2cBuffer` (src/lib.rs lines 104-107): a message batch bound to a handle. -/
structure I2cBuffer where
  buffer : List I2cMessage
  handle : I2c
deriving DecidableEq, Repr

/-- `I2c::i2c_buffer` (src/lib.rs lines 80-85). -/
def I2c.i2c_buffer (self : I2c) : I2cBuffer :=
  { buffer := I2cMessageBuffer.new, handle := self }

/-- `I2cBuffer::add_read` (src/lib.rs lines 110-116). -/
def I2cBuffer.add_read (self : I2cBuffer) (flags : Nat) (buffer : List Nat) :
    Option I2cBuffer :=
  (I2cMessageBuffer.add_read self.buffer self.handle.addr flags buffer).map
    fun b => { buffer := b, handle := self.handle }

/-- `I2cBuffer::add_write` (src/lib.rs lines 118-124). -/
def I2cBuffer.add_write (self : I2cBuffer) (flags : Nat) (buffer : List Nat) :
    Option I2cBuffer :=
  (I2cMessageBuffer.add_write self.buffer self.handle.addr flags buffer).map
    fun b => { buffer := b, handle := self.handle }

/-- `I2cBuffer::add_raw` (src/lib.rs lines 126-134):
`u16::try_from(buffer.len()).unwrap()` then the raw append. -/
def I2cBuffer.add_raw (self : I2cBuffer) (flags : Nat) (buffer : List Nat) :
    Option I2cBuffer :=
  (u16_try_from buffer.length).map fun len =>
    { buffer := I2cMessageBuffer.add_raw self.buffer self.handle.addr flags len buffer,
      handle := self.handle }

/-- `I2cBuffer::execute` (src/lib.rs lines 136-139): marshals the batch and
issues the transaction; an ioctl failure is wrapped in `BufferError`. -/
def I2cBuffer.execute (self : I2cBuffer) (ret : Int) (errno : Nat) :
    Except I2cError Unit × Nat :=
  let _data := I2cReadWriteData.from_messages self.buffer
  match i2c_rdwr_ioctl self.handle ret errno with
  | (Except.error e, n) => (Except.error (I2cError.BufferError e), n)
  | (Except.ok _, n) => (Except.ok (), n)

/-! ## Helper lemmas on bits -/

lemma testBit_one (i : Nat) : (1 : Nat).testBit i = decide (i = 0) := by
  cases i with
  | zero => decide
  | succ n => simp [Nat.testBit_succ]

lemma U64_MAX_testBit (i : Nat) : U64_MAX.testBit i = decide (i < 64) := by
  have h : U64_MAX = 2 ^ 64 - 1 := by norm_num [U64_MAX]
  rw [h, Nat.testBit_two_pow_sub_one]

lemma testBit_false_of_lt {n w i : Nat} (h : n < 2 ^ w) (hi : w ≤ i) :
    n.testBit i = false :=
  Nat.testBit_lt_two_pow (lt_of_lt_of_le h (Nat.pow_le_pow_right (by norm_num) hi))

/-- The `u16` complement of the read flag, bit by bit: `0xFFFE` has exactly the
bits `1` through `15`. -/
lemma not_rd_testBit (i : Nat) :
    (I2C_M_RD ^^^ U16_MAX).testBit i = decide (0 < i ∧ i < 16) := by
  have h : I2C_M_RD ^^^ U16_MAX = 0xFFFE := by decide
  rw [h]
  rcases lt_or_ge i 16 with hlt | hge
  · interval_cases i <;> decide
  · rw [testBit_false_of_lt (show (0xFFFE : Nat) < 2 ^ 16 by norm_num) hge]
    simp; omega

/-- `require_func` applied to the plain-I2C bit, as a function of the `i2c`
predicate of the handle's capability set. -/
lemma require_func_i2c (h : I2c) :
    h.require_func I2C_FUNC_I2C =
      if h.func.i2c then Except.ok () else Except.error { val := 1 } := by
  have hland : ∀ v : Nat, (v ^^^ U64_MAX) &&& 1 = if v.testBit 0 then 0 else 1 := by
    intro v
    cases hv : v.testBit 0
    · apply Nat.eq_of_testBit_eq
      intro i
      simp only [Nat.testBit_and, Nat.testBit_xor, testBit_one, U64_MAX_testBit]
      rcases eq_or_ne i 0 with rfl | hi
      · simp [hv, testBit_one]
      · simp [hi, testBit_one]
    · apply Nat.eq_of_testBit_eq
      intro i
      simp only [Nat.testBit_and, Nat.testBit_xor, testBit_one, U64_MAX_testBit]
      rcases eq_or_ne i 0 with rfl | hi
      · simp [hv, testBit_one]
      · simp [hi, testBit_one]
  have hi2c : h.func.i2c = h.func.val.testBit 0 := by
    have hv : h.func.val &&& I2C_FUNC_I2C = if h.func.val.testBit 0 then 1 else 0 := by
      cases hv : h.func.val.testBit 0 <;>
      · apply Nat.eq_of_testBit_eq
        intro i
        simp only [I2C_FUNC_I2C, Nat.testBit_and, testBit_one]
        rcases eq_or_ne i 0 with rfl | hi
        · simp [hv]
        · simp [hi, testBit_one]
    rw [Functionality.i2c, hv]
    cases h.func.val.testBit 0 <;> simp
  rw [I2c.require_func, hi2c]
  simp only [I2C_FUNC_I2C, hland]
  cases h.func.val.testBit 0 <;> simp

/-- The address-range test of `open`, restated arithmetically. -/
lemma addr_out_of_range_iff (func : Functionality) (addr : Nat) :
    addr_out_of_range func addr = true ↔
      ¬ (if func._10_bit_addr then addr ≤ 0x3FF else addr ≤ 0x7F) := by
  cases h10 : func._10_bit_addr <;> simp [addr_out_of_range, h10]

/-! ## Claim theorems -/

/-- C7: the wire-format constants have exactly the numeric values the spec
lists: the seven message flag bits, the four low capability bits, the SMBus
block-process-call bit, and the twelve SMBus quick..write-block bits occupying
`0x00010000` through `0x08000000` in enumeration order. -/
theorem wire_constants_exact :
    I2C_M_RD = 0x0001 ∧ I2C_M_TEN = 0x0010 ∧ I2C_M_RECV_LEN = 0x0400 ∧
    I2C_M_NO_RD_ACK = 0x0800 ∧ I2C_M_IGNORE_NACK = 0x1000 ∧
    I2C_M_REV_DIR_ADDR = 0x2000 ∧ I2C_M_NOSTART = 0x4000 ∧
    I2C_FUNC_I2C = 0x00000001 ∧ I2C_FUNC_10BIT_ADDR = 0x00000002 ∧
    I2C_FUNC_PROTOCOL_MANGLING = 0x00000004 ∧ I2C_FUNC_SMBUS_PEC = 0x00000008 ∧
    I2C_FUNC_SMBUS_BLOCK_PROC_CALL = 0x00008000 ∧
    I2C_FUNC_SMBUS_QUICK = 0x00010000 ∧
    I2C_FUNC_SMBUS_READ_BYTE = 2 * I2C_FUNC_SMBUS_QUICK ∧
    I2C_FUNC_SMBUS_WRITE_BYTE = 2 * I2C_FUNC_SMBUS_READ_BYTE ∧
    I2C_FUNC_SMBUS_READ_BYTE_DATA = 2 * I2C_FUNC_SMBUS_WRITE_BYTE ∧
    I2C_FUNC_SMBUS_WRITE_BYTE_DATA = 2 * I2C_FUNC_SMBUS_READ_BYTE_DATA ∧
    I2C_FUNC_SMBUS_READ_WORD_DATA = 2 * I2C_FUNC_SMBUS_WRITE_BYTE_DATA ∧
    I2C_FUNC_SMBUS_WRITE_WORD_DATA = 2 * I2C_FUNC_SMBUS_READ_WORD_DATA ∧
    I2C_FUNC_SMBUS_PROC_CALL = 2 * I2C_FUNC_SMBUS_WRITE_WORD_DATA ∧
    I2C_FUNC_SMBUS_READ_BLOCK_DATA = 2 * I2C_FUNC_SMBUS_PROC_CALL ∧
    I2C_FUNC_SMBUS_WRITE_BLOCK_DATA = 2 * I2C_FUNC_SMBUS_READ_BLOCK_DATA ∧
    I2C_FUNC_SMBUS_READ_BLOCK = 2 * I2C_FUNC_SMBUS_WRITE_BLOCK_DATA ∧
    I2C_FUNC_SMBUS_WRITE_BLOCK = 2 * I2C_FUNC_SMBUS_READ_BLOCK ∧
    I2C_FUNC_SMBUS_WRITE_BLOCK = 0x08000000 := by
  decide

/-- C2: for every address and capability set, handle construction passes the
address check iff the address fits the range the capability allows (`≤ 0x7F`
without 10-bit addressing, `≤ 0x3FF` with it); otherwise it fails with the
address-range error and no handle is produced. -/
theorem open_address_check (addr : Nat) (func : Functionality) :
    (I2c.open addr func = Except.ok { addr := addr, func := func } ↔
      (if func._10_bit_addr then addr ≤ 0x3FF else addr ≤ 0x7F))
    ∧ (I2c.open addr func = Except.error I2cError.AddressError ↔
      ¬ (if func._10_bit_addr then addr ≤ 0x3FF else addr ≤ 0x7F)) := by
  have h := addr_out_of_range_iff func addr
  rw [I2c.open]
  rcases Bool.eq_false_or_eq_true (addr_out_of_range func addr) with hb | hb <;>
    rw [hb] <;> simp_all

/-- Witness for C2: with 10-bit addressing (capability word `2`), address
`0x3FF` is accepted and `0x400` is rejected. -/
theorem open_address_check_witness :
    I2c.open 0x3FF { val := 2 } =
      Except.ok { addr := 0x3FF, func := { val := 2 } }
    ∧ I2c.open 0x400 { val := 2 } = Except.error I2cError.AddressError :=
  ⟨(open_address_check 0x3FF { val := 2 }).1.mpr (by decide),
   (open_address_check 0x400 { val := 2 }).2.mpr (by decide)⟩

/-- C3: `require_func` succeeds iff every requested bit is present in the
capability value, and on failure returns exactly the unmet bits
(`mask & ~self`, bit by bit); for capability bits `0b10110`,
`require(0b00100)` succeeds and `require(0b11001)` fails with `0b01001`. -/
theorem require_func_spec (self : I2c) (func : Nat) (hfunc : func < 2 ^ 64) :
    ((self.require_func func = Except.ok ()) ↔ func &&& self.func.val = func)
    ∧ (∀ m, self.require_func func = Except.error m →
        ∀ i, m.val.testBit i = (func.testBit i && !self.func.val.testBit i))
    ∧ I2c.require_func { addr := 0x76, func := { val := 22 } } 4 = Except.ok ()
    ∧ I2c.require_func { addr := 0x76, func := { val := 22 } } 25 =
        Except.error { val := 9 } := by
  refine ⟨?_, ?_, by rfl, by rfl⟩
  · rw [I2c.require_func]
    constructor
    · intro hok
      have hmask : (self.func.val ^^^ U64_MAX) &&& func = 0 := by
        by_contra hne
        simp [hne] at hok
      apply Nat.eq_of_testBit_eq
      intro i
      have hbit := congrArg (fun n => n.testBit i) hmask
      simp only [Nat.testBit_and, Nat.testBit_xor, U64_MAX_testBit,
        Nat.zero_testBit] at hbit ⊢
      rcases lt_or_ge i 64 with hi | hi
      · simp [hi] at hbit
        cases hf : func.testBit i
        · simp
        · simp [hf] at hbit ⊢
          cases hs : self.func.val.testBit i
          · simp [hs] at hbit
          · rfl
      · rw [testBit_false_of_lt hfunc hi]
        simp
    · intro hsub
      have hmask : (self.func.val ^^^ U64_MAX) &&& func = 0 := by
        apply Nat.eq_of_testBit_eq
        intro i
        have hbit := congrArg (fun n => n.testBit i) hsub
        simp only [Nat.testBit_and, Nat.testBit_xor, U64_MAX_testBit,
          Nat.zero_testBit] at hbit ⊢
        rcases lt_or_ge i 64 with hi | hi
        · simp [hi]
          cases hf : func.testBit i
          · simp
          · simp [hf] at hbit
            simp [hbit]
        · rw [testBit_false_of_lt hfunc hi]
          simp
      simp [hmask]
  · intro m hm i
    rw [I2c.require_func] at hm
    by_cases hmask : (self.func.val ^^^ U64_MAX) &&& func = 0
    · simp [hmask] at hm
    · simp only [hmask, if_neg hmask] at hm
      have hmv : m.val = (self.func.val ^^^ U64_MAX) &&& func := by
        cases hm
        rfl
      rw [hmv]
      simp only [Nat.testBit_and, Nat.testBit_xor, U64_MAX_testBit]
      rcases lt_or_ge i 64 with hi | hi
      · simp [hi]
        cases func.testBit i <;> cases self.func.val.testBit i <;> simp
      · rw [testBit_false_of_lt hfunc hi]
        simp

/-- C1: with the plain-I2C capability bit cleared, `i2c_rdwr_ioctl` fails with
the missing-capability error carrying the unmet bit `1` and never issues the
`I2C_RDWR` ioctl (invocation count `0`); the single-shot helpers and batch
execute each surface that error under their own context tag, still with no
ioctl issued. -/
theorem missing_capability_blocks_ioctl (h : I2c) (hcap : h.func.i2c = false)
    (register bytes : Nat) (rbuf payload : List Nat) (b : I2cBuffer)
    (hb : b.handle = h) (ret : Int) (errno : Nat) :
    i2c_rdwr_ioctl h ret errno =
      (Except.error (IoctlError.FunctionalityError { val := 1 }), 0)
    ∧ (∀ m r n, h.i2c_read_bytes register bytes ret errno = some (m, r, n) →
        r = Except.error (I2cError.ReadError
              (IoctlError.FunctionalityError { val := 1 })) ∧ n = 0)
    ∧ (∀ m r n, h.i2c_read register rbuf ret errno = some (m, r, n) →
        r = Except.error (I2cError.ReadError
              (IoctlError.FunctionalityError { val := 1 })) ∧ n = 0)
    ∧ (∀ m r n, h.i2c_write register payload ret errno = some (m, r, n) →
        r = Except.error (I2cError.WriteError
              (IoctlError.FunctionalityError { val := 1 })) ∧ n = 0)
    ∧ b.execute ret errno =
        (Except.error (I2cError.BufferError
          (IoctlError.FunctionalityError { val := 1 })), 0) := by
  have hio : i2c_rdwr_ioctl h ret errno =
      (Except.error (IoctlError.FunctionalityError { val := 1 }), 0) := by
    rw [i2c_rdwr_ioctl, require_func_i2c, hcap]
    simp
  refine ⟨hio, ?_, ?_, ?_, ?_⟩
  · intro m r n hm
    rw [I2c.i2c_read_bytes] at hm
    rcases Option.map_eq_some'.mp hm with ⟨msgs, _, hfx⟩
    rw [hio] at hfx
    simp only [Prod.mk.injEq] at hfx
    exact ⟨hfx.2.1.symm, hfx.2.2.symm⟩
  · intro m r n hm
    rw [I2c.i2c_read] at hm
    rcases Option.map_eq_some'.mp hm with ⟨msgs, _, hfx⟩
    rw [hio] at hfx
    simp only [Prod.mk.injEq] at hfx
    exact ⟨hfx.2.1.symm, hfx.2.2.symm⟩
  · intro m r n hm
    rw [I2c.i2c_write] at hm
    rcases Option.map_eq_some'.mp hm with ⟨msgs, _, hfx⟩
    rw [hio] at hfx
    simp only [Prod.mk.injEq] at hfx
    exact ⟨hfx.2.1.symm, hfx.2.2.symm⟩
  · rw [I2cBuffer.execute, hb, hio]

/-- Witness for C1 at a concrete handle whose capability word is `0`. -/
theorem missing_capability_blocks_ioctl_witness :
    i2c_rdwr_ioctl { addr := 0x76, func := { val := 0 } } 0 0 =
      (Except.error (IoctlError.FunctionalityError { val := 1 }), 0)
    ∧ I2cBuffer.execute
        (I2c.i2c_buffer { addr := 0x76, func := { val := 0 } }) 0 0 =
        (Except.error (I2cError.BufferError
          (IoctlError.FunctionalityError { val := 1 })), 0) :=
  have happ := missing_capability_blocks_ioctl
    { addr := 0x76, func := { val := 0 } } (by decide) 0xD0 1 [0] [1]
    (I2c.i2c_buffer { addr := 0x76, func := { val := 0 } }) rfl 0 0
  ⟨happ.1, happ.2.2.2.2⟩

/-- C4: `read_reg` produces exactly two messages, in order: a write message
(read-direction bit clear) of length 1 carrying the register value, then a
read message (read-direction bit set) whose length is the destination
buffer's length. -/
theorem read_reg_framing (addr reg : Nat) (buffer : List Nat)
    (hlen : buffer.length ≤ U16_MAX) :
    I2cMessage.read_reg addr reg buffer =
      some [ { addr := addr, flags := 0, len := 1, buffer := [reg] },
             { addr := addr, flags := 1, len := buffer.length, buffer := buffer } ]
    ∧ (0 : Nat) &&& I2C_M_RD = 0 ∧ (1 : Nat) &&& I2C_M_RD = I2C_M_RD := by
  refine ⟨?_, by decide, by decide⟩
  rw [I2cMessage.read_reg, u16_try_from, if_pos hlen]
  rfl

/-- Witness for C4 on a two-byte destination buffer. -/
theorem read_reg_framing_witness :
    I2cMessage.read_reg 0x76 0xD0 [0, 0] =
      some [ { addr := 0x76, flags := 0, len := 1, buffer := [0xD0] },
             { addr := 0x76, flags := 1, len := 2, buffer := [0, 0] } ]
    ∧ (0 : Nat) &&& I2C_M_RD = 0 ∧ (1 : Nat) &&& I2C_M_RD = I2C_M_RD :=
  read_reg_framing 0x76 0xD0 [0, 0] (by decide)

/-- The read flag is set after `flags | I2C_M_RD`. -/
lemma or_rd_and_rd (f : Nat) : (f ||| I2C_M_RD) &&& I2C_M_RD = I2C_M_RD := by
  apply Nat.eq_of_testBit_eq
  intro i
  rw [Nat.testBit_and, Nat.testBit_or, show I2C_M_RD = 1 from rfl, testBit_one]
  rcases eq_or_ne i 0 with rfl | hi
  · simp
  · simp [hi]

/-- The read flag is clear after `flags & !I2C_M_RD`. -/
lemma and_notrd_and_rd (f : Nat) :
    (f &&& (I2C_M_RD ^^^ U16_MAX)) &&& I2C_M_RD = 0 := by
  apply Nat.eq_of_testBit_eq
  intro i
  rw [Nat.testBit_and, Nat.testBit_and, not_rd_testBit, Nat.zero_testBit,
    show I2C_M_RD = 1 from rfl, testBit_one]
  rcases eq_or_ne i 0 with rfl | hi
  · simp
  · simp [hi]

/-- `flags | I2C_M_RD` preserves every bit other than bit 0. -/
lemma or_rd_testBit_ne (f : Nat) {i : Nat} (hi : i ≠ 0) :
    (f ||| I2C_M_RD).testBit i = f.testBit i := by
  rw [Nat.testBit_or, show I2C_M_RD = 1 from rfl, testBit_one]
  simp [hi]

/-- `flags & !I2C_M_RD` preserves every bit other than bit 0, for a `u16`
flags value. -/
lemma and_notrd_testBit_ne {f : Nat} (hf : f < 2 ^ 16) {i : Nat} (hi : i ≠ 0) :
    (f &&& (I2C_M_RD ^^^ U16_MAX)).testBit i = f.testBit i := by
  simp only [Nat.testBit_and, not_rd_testBit]
  rcases lt_or_ge i 16 with hlt | hge
  · have : (0 < i ∧ i < 16) := ⟨Nat.pos_of_ne_zero hi, hlt⟩
    simp [this]
  · rw [testBit_false_of_lt hf hge]
    simp

/-- C5: `add_read` appends exactly one message with the read-direction bit
set, `add_write` appends exactly one message with it clear; both preserve
every other flag bit of the input, target the given address, carry the given
buffer, and record the buffer's length. -/
theorem add_read_write_direction (msgs : List I2cMessage) (addr flags : Nat)
    (buffer : List Nat) (hflags : flags < 2 ^ 16)
    (hlen : buffer.length ≤ U16_MAX) :
    (∃ m, I2cMessageBuffer.add_read msgs addr flags buffer = some (msgs ++ [m])
        ∧ m.flags &&& I2C_M_RD = I2C_M_RD
        ∧ (∀ i, i ≠ 0 → m.flags.testBit i = flags.testBit i)
        ∧ m.len = buffer.length ∧ m.addr = addr ∧ m.buffer = buffer)
    ∧ (∃ m, I2cMessageBuffer.add_write msgs addr flags buffer = some (msgs ++ [m])
        ∧ m.flags &&& I2C_M_RD = 0
        ∧ (∀ i, i ≠ 0 → m.flags.testBit i = flags.testBit i)
        ∧ m.len = buffer.length ∧ m.addr = addr ∧ m.buffer = buffer) := by
  constructor
  · refine ⟨{ addr := addr, flags := flags ||| I2C_M_RD, len := buffer.length,
              buffer := buffer }, ?_, or_rd_and_rd flags,
      fun i hi => or_rd_testBit_ne flags hi, rfl, rfl, rfl⟩
    rw [I2cMessageBuffer.add_read, u16_try_from, if_pos hlen]
    rfl
  · refine ⟨{ addr := addr, flags := flags &&& (I2C_M_RD ^^^ U16_MAX),
              len := buffer.length, buffer := buffer }, ?_, and_notrd_and_rd flags,
      fun i hi => and_notrd_testBit_ne hflags hi, rfl, rfl, rfl⟩
    rw [I2cMessageBuffer.add_write, u16_try_from, if_pos hlen]
    rfl

/-- Witness for C5 with flags `0x1401` on a one-byte buffer. -/
theorem add_read_write_direction_witness :
    (∃ m, I2cMessageBuffer.add_read [] 0x76 0x1401 [7] = some ([] ++ [m])
        ∧ m.flags &&& I2C_M_RD = I2C_M_RD
        ∧ (∀ i, i ≠ 0 → m.flags.testBit i = (0x1401 : Nat).testBit i)
        ∧ m.len = [7].length ∧ m.addr = 0x76 ∧ m.buffer = [7])
    ∧ (∃ m, I2cMessageBuffer.add_write [] 0x76 0x1401 [7] = some ([] ++ [m])
        ∧ m.flags &&& I2C_M_RD = 0
        ∧ (∀ i, i ≠ 0 → m.flags.testBit i = (0x1401 : Nat).testBit i)
        ∧ m.len = [7].length ∧ m.addr = 0x76 ∧ m.buffer = [7]) :=
  add_read_write_direction [] 0x76 0x1401 [7] (by norm_num) (by decide)

/-- C6: when the capability check passes and the transaction call itself
fails, the single-shot read helpers report `ReadError`, the single-shot write
helper reports `WriteError`, and batch execute reports `BufferError`, each
wrapping the underlying OS error. -/
theorem transaction_error_context (h : I2c) (register bytes : Nat)
    (rbuf payload : List Nat) (b : I2cBuffer) (hb : b.handle = h)
    (ret : Int) (errno : Nat) (hcap : h.func.i2c = true) (hret : ret < 0) :
    (∀ m r n, h.i2c_read_bytes register bytes ret errno = some (m, r, n) →
        r = Except.error (I2cError.ReadError (IoctlError.IoctlError errno)))
    ∧ (∀ m r n, h.i2c_read register rbuf ret errno = some (m, r, n) →
        r = Except.error (I2cError.ReadError (IoctlError.IoctlError errno)))
    ∧ (∀ m r n, h.i2c_write register payload ret errno = some (m, r, n) →
        r = Except.error (I2cError.WriteError (IoctlError.IoctlError errno)))
    ∧ b.execute ret errno =
        (Except.error (I2cError.BufferError (IoctlError.IoctlError errno)), 1) := by
  have hio : i2c_rdwr_ioctl h ret errno =
      (Except.error (IoctlError.IoctlError errno), 1) := by
    rw [i2c_rdwr_ioctl, require_func_i2c, hcap]
    simp only [if_pos]
    rw [get_err, if_neg (by omega)]
  refine ⟨?_, ?_, ?_, ?_⟩
  · intro m r n hm
    rw [I2c.i2c_read_bytes] at hm
    rcases Option.map_eq_some'.mp hm with ⟨msgs, _, hfx⟩
    rw [hio] at hfx
    simp only [Prod.mk.injEq] at hfx
    exact hfx.2.1.symm
  · intro m r n hm
    rw [I2c.i2c_read] at hm
    rcases Option.map_eq_some'.mp hm with ⟨msgs, _, hfx⟩
    rw [hio] at hfx
    simp only [Prod.mk.injEq] at hfx
    exact hfx.2.1.symm
  · intro m r n hm
    rw [I2c.i2c_write] at hm
    rcases Option.map_eq_some'.mp hm with ⟨msgs, _, hfx⟩
    rw [hio] at hfx
    simp only [Prod.mk.injEq] at hfx
    exact hfx.2.1.symm
  · rw [I2cBuffer.execute, hb, hio]

/-- Witness for C6: a failing ioctl (`ret = -1`, `errno = 121`) on a handle
with the plain-I2C capability, exercised through batch execute. -/
theorem transaction_error_context_witness :
    I2cBuffer.execute (I2c.i2c_buffer { addr := 0x76, func := { val := 1 } })
        (-1) 121 =
      (Except.error (I2cError.BufferError (IoctlError.IoctlError 121)), 1) :=
  (transaction_error_context { addr := 0x76, func := { val := 1 } } 0xD0 1 [0]
    [1] (I2c.i2c_buffer { addr := 0x76, func := { val := 1 } }) rfl (-1) 121
    (by decide) (by norm_num)).2.2.2

/-- `u16_try_from` succeeds exactly on values representable in 16 bits. -/
lemma u16_try_from_isSome (n : Nat) :
    (u16_try_from n).isSome ↔ n ≤ U16_MAX := by
  rw [u16_try_from]
  split <;> simp_all

/-- C8: the batch-building operations succeed (do not hit the `unwrap` panic
of the length conversion) exactly when the buffer's length fits the 16-bit
wire length field. -/
theorem builder_length_no_panic (msgs : List I2cMessage) (b : I2cBuffer)
    (addr flags : Nat) (buffer : List Nat) :
    ((I2cMessageBuffer.add_read msgs addr flags buffer).isSome ↔
      buffer.length ≤ U16_MAX)
    ∧ ((I2cMessageBuffer.add_write msgs addr flags buffer).isSome ↔
      buffer.length ≤ U16_MAX)
    ∧ ((b.add_raw flags buffer).isSome ↔ buffer.length ≤ U16_MAX)
    ∧ ((b.add_read flags buffer).isSome ↔ buffer.length ≤ U16_MAX)
    ∧ ((b.add_write flags buffer).isSome ↔ buffer.length ≤ U16_MAX) := by
  refine ⟨?_, ?_, ?_, ?_, ?_⟩ <;>
    simp [I2cMessageBuffer.add_read, I2cMessageBuffer.add_write,
      I2cBuffer.add_raw, I2cBuffer.add_read, I2cBuffer.add_write,
      Option.isSome_map', u16_try_from_isSome]

/-- Witness for C8: a one-byte buffer is accepted by `add_read` on a fresh
handle-bound batch. -/
theorem builder_length_no_panic_witness :
    (I2cBuffer.add_read
      (I2c.i2c_buffer { addr := 0x76, func := { val := 1 } }) 0 [7]).isSome :=
  (builder_length_no_panic [] (I2c.i2c_buffer { addr := 0x76, func := { val := 1 } })
    0 0 [7]).2.2.2.1.mpr (by decide)

/-- C9: every message appended through a handle-bound builder operation
carries the handle's address, exactly one message is appended, and the handle
(address and capability set) is unchanged. -/
theorem builder_uses_handle_addr (b : I2cBuffer) (flags : Nat)
    (buffer : List Nat) :
    (∀ b2, b.add_read flags buffer = some b2 → b2.handle = b.handle ∧
      ∃ m, b2.buffer = b.buffer ++ [m] ∧ m.addr = b.handle.addr)
    ∧ (∀ b2, b.add_write flags buffer = some b2 → b2.handle = b.handle ∧
      ∃ m, b2.buffer = b.buffer ++ [m] ∧ m.addr = b.handle.addr)
    ∧ (∀ b2, b.add_raw flags buffer = some b2 → b2.handle = b.handle ∧
      ∃ m, b2.buffer = b.buffer ++ [m] ∧ m.addr = b.handle.addr) := by
  refine ⟨?_, ?_, ?_⟩
  · intro b2 hb2
    rw [I2cBuffer.add_read, I2cMessageBuffer.add_read, Option.map_map] at hb2
    rcases Option.map_eq_some'.mp hb2 with ⟨len, _, hfx⟩
    rw [← hfx]
    exact ⟨rfl, _, rfl, rfl⟩
  · intro b2 hb2
    rw [I2cBuffer.add_write, I2cMessageBuffer.add_write, Option.map_map] at hb2
    rcases Option.map_eq_some'.mp hb2 with ⟨len, _, hfx⟩
    rw [← hfx]
    exact ⟨rfl, _, rfl, rfl⟩
  · intro b2 hb2
    rw [I2cBuffer.add_raw] at hb2
    rcases Option.map_eq_some'.mp hb2 with ⟨len, _, hfx⟩
    rw [← hfx]
    exact ⟨rfl, _, rfl, rfl⟩

/-- Witness for C9: `add_read` on a fresh batch of a concrete handle. -/
theorem builder_uses_handle_addr_witness :
    ({ buffer := [{ addr := 0x76, flags := 1, len := 1, buffer := [5] }],
       handle := { addr := 0x76, func := { val := 3 } } } : I2cBuffer).handle =
      (I2c.i2c_buffer { addr := 0x76, func := { val := 3 } }).handle
    ∧ ∃ m, ({ buffer := [{ addr := 0x76, flags := 1, len := 1, buffer := [5] }],
              handle := { addr := 0x76, func := { val := 3 } } } : I2cBuffer).buffer =
        (I2c.i2c_buffer { addr := 0x76, func := { val := 3 } }).buffer ++ [m]
      ∧ m.addr = (I2c.i2c_buffer { addr := 0x76, func := { val := 3 } }).handle.addr :=
  (builder_uses_handle_addr
    (I2c.i2c_buffer { addr := 0x76, func := { val := 3 } }) 0 [5]).1 _ rfl

/-- C10: the single-shot write helper issues exactly one message, in write
direction (flags `0`, so the read bit is clear), of length one more than the
payload, whose data is the register byte followed by the payload. -/
theorem i2c_write_single_message (h : I2c) (register : Nat)
    (payload : List Nat) (ret : Int) (errno : Nat)
    (hlen : payload.length + 1 ≤ U16_MAX) :
    (∃ r n, h.i2c_write register payload ret errno =
      some ([ { addr := h.addr, flags := 0, len := payload.length + 1,
                buffer := register :: payload } ], r, n))
    ∧ (0 : Nat) &&& I2C_M_RD = 0 := by
  refine ⟨?_, by decide⟩
  rw [I2c.i2c_write, I2cMessageBuffer.add_write]
  have hl : (register :: payload).length = payload.length + 1 := rfl
  rw [hl, u16_try_from, if_pos hlen]
  simp only [Option.map_some']
  have hflags : (0 : Nat) &&& (I2C_M_RD ^^^ U16_MAX) = 0 := Nat.zero_and _
  rw [I2cMessageBuffer.add_raw, hflags]
  rcases hres : i2c_rdwr_ioctl h ret errno with ⟨res, n⟩
  cases res with
  | error e => exact ⟨Except.error (I2cError.WriteError e), n, rfl⟩
  | ok u => exact ⟨Except.ok (), n, rfl⟩

/-- Witness for C10: writing byte `1` to register `0x72`. -/
theorem i2c_write_single_message_witness :
    (∃ r n, I2c.i2c_write { addr := 0x76, func := { val := 1 } } 0x72 [1] 0 0 =
      some ([ { addr := 0x76, flags := 0, len := 2, buffer := [0x72, 1] } ], r, n))
    ∧ (0 : Nat) &&& I2C_M_RD = 0 :=
  i2c_write_single_message { addr := 0x76, func := { val := 1 } } 0x72 [1] 0 0
    (by decide)

/-- Witness for C3 at capability bits `0b10110`. -/
theorem require_func_spec_witness :
    ((I2c.require_func { addr := 0x76, func := { val := 22 } } 25 =
        Except.ok ()) ↔ (25 : Nat) &&& 22 = 25)
    ∧ I2c.require_func { addr := 0x76, func := { val := 22 } } 4 =
        Except.ok ()
    ∧ I2c.require_func { addr := 0x76, func := { val := 22 } } 25 =
        Except.error { val := 9 } :=
  have happ := require_func_spec { addr := 0x76, func := { val := 22 } } 25
    (by norm_num)
  ⟨happ.1, happ.2.2.1, happ.2.2.2⟩

end Ic2
